import Mathlib

/-!
# oz-seccomp: the ptrace event loop of `Tracer` (src/oz-seccomp/tracer.go)

A shallow embedding of `Tracer`.  Everything the function asks of the operating
system or of a collaborator (decoding the profile, the pipe, `c.Start`,
`syscall.Wait4`, `syscall.PtraceGetRegs`, `readStringArg`) is an input of the
model; everything it does to the outside world (ptrace requests, collaborator
calls, log lines, `os.Exit`) is recorded, in program order, as a list of
`Effect`s.  The local variables that live across loop iterations (`children`,
`done`, `pid`) form the `LoopState`.
-/

namespace OzSeccomp

/-! ## Library constants and types used by the source -/

/-- Linux `syscall.SIGTRAP`. -/
def SIGTRAP : Nat := 5
/-- Linux `syscall.SIGCHLD`. -/
def SIGCHLD : Nat := 17
/-- Linux `syscall.SIGSTOP`. -/
def SIGSTOP : Nat := 19

/-- Linux `unix.PTRACE_EVENT_FORK`. -/
def PTRACE_EVENT_FORK : Nat := 1
/-- Linux `unix.PTRACE_EVENT_VFORK`. -/
def PTRACE_EVENT_VFORK : Nat := 2
/-- Linux `unix.PTRACE_EVENT_CLONE`. -/
def PTRACE_EVENT_CLONE : Nat := 3
/-- Linux `unix.PTRACE_EVENT_EXEC`. -/
def PTRACE_EVENT_EXEC : Nat := 4
/-- Linux `unix.PTRACE_EVENT_VFORK_DONE`. -/
def PTRACE_EVENT_VFORK_DONE : Nat := 5
/-- Linux `unix.PTRACE_EVENT_EXIT`. -/
def PTRACE_EVENT_EXIT : Nat := 6
/-- Linux `unix.PTRACE_EVENT_SECCOMP`. -/
def PTRACE_EVENT_SECCOMP : Nat := 7
/-- Linux `unix.PTRACE_EVENT_STOP`. -/
def PTRACE_EVENT_STOP : Nat := 128

/-- Linux `unix.PTRACE_O_TRACEFORK`. -/
def PTRACE_O_TRACEFORK : Nat := 2
/-- Linux `unix.PTRACE_O_TRACEVFORK`. -/
def PTRACE_O_TRACEVFORK : Nat := 4
/-- Linux `unix.PTRACE_O_TRACECLONE`. -/
def PTRACE_O_TRACECLONE : Nat := 8
/-- Linux `unix.PTRACE_O_TRACESECCOMP`. -/
def PTRACE_O_TRACESECCOMP : Nat := 128

/-- The constants `STRINGARG = iota + 1`, `PTRARG`, `INTARG` of the source. -/
def STRINGARG : Int := 1
/-- Second constant of the `iota + 1` block. -/
def PTRARG : Int := 2
/-- Third constant of the `iota + 1` block. -/
def INTARG : Int := 3

/-- The source's `type SystemCallArgs []int`. -/
abbrev SystemCallArgs := List Int

/-- Go's `syscall.WaitStatus` is a `uint32`; it is carried as a natural number
and reduced modulo `2^32` where the source converts it (`uint32(s)`). -/
abbrev WaitStatus := Nat

/-- Go `func (w WaitStatus) Exited() bool { return w&mask == exited }`
with `mask = 0x7F`, `exited = 0x00`. -/
def WaitStatus.Exited (w : WaitStatus) : Bool := w &&& 0x7F == 0x00

/-- Go `func (w WaitStatus) Signaled() bool
{ return w&mask != stopped && w&mask != exited }` with `stopped = 0x7F`. -/
def WaitStatus.Signaled (w : WaitStatus) : Bool :=
  w &&& 0x7F != 0x7F && w &&& 0x7F != 0x00

/-- Go `func (w WaitStatus) Stopped() bool { return w&0xFF == stopped }`. -/
def WaitStatus.Stopped (w : WaitStatus) : Bool := w &&& 0xFF == 0x7F

/-- Go `func (w WaitStatus) StopSignal() Signal`: `-1` unless stopped, else
`Signal(w>>shift) & 0xFF` with `shift = 8`. -/
def WaitStatus.StopSignal (w : WaitStatus) : Int :=
  if !WaitStatus.Stopped w then -1 else (((w >>> 8) &&& 0xFF : Nat) : Int)

/-- Go `syscall.PtraceRegs` on linux/amd64 (all fields are `uint64`). -/
structure PtraceRegs where
  R15 : Nat := 0
  R14 : Nat := 0
  R13 : Nat := 0
  R12 : Nat := 0
  Rbp : Nat := 0
  Rbx : Nat := 0
  R11 : Nat := 0
  R10 : Nat := 0
  R9 : Nat := 0
  R8 : Nat := 0
  Rax : Nat := 0
  Rcx : Nat := 0
  Rdx : Nat := 0
  Rsi : Nat := 0
  Rdi : Nat := 0
  Orig_rax : Nat := 0
  Rip : Nat := 0
  Cs : Nat := 0
  Eflags : Nat := 0
  Rsp : Nat := 0
  Ss : Nat := 0
  Fs_base : Nat := 0
  Gs_base : Nat := 0
  Ds : Nat := 0
  Es : Nat := 0
  Fs : Nat := 0
  Gs : Nat := 0
  deriving DecidableEq, Repr

/-- The value of `var regs syscall.PtraceRegs`: every register zero. -/
def PtraceRegs.zero : PtraceRegs := {}

/-- Go's conversion `int(x)` of a `uint64` on a 64-bit platform. -/
def uint64ToInt (x : Nat) : Int :=
  if x % 2 ^ 64 < 2 ^ 63 then ((x % 2 ^ 64 : Nat) : Int)
  else ((x % 2 ^ 64 : Nat) : Int) - 2 ^ 64

/-- Modelled from the spec: the record returned by the syscall resolver
`syscallByNum`, whose declaration is not part of the source file
("a descriptor {name, ordered argument-kind list}"). -/
structure SystemCall where
  name : String
  args : SystemCallArgs
  deriving DecidableEq, Repr

/-- The collaborators of the package that `Tracer` calls as pure lookups:
`getSyscallNumber(regs)` and `syscallByNum(num)` (`none` is its error). -/
structure Env where
  getSyscallNumber : PtraceRegs → Int
  syscallByNum : Int → Option SystemCall

/-! ## Inputs: what the operating system answers -/

/-- What one call `pid, err = syscall.Wait4(-1, &s, syscall.WALL, nil)` gives
back: the returned `pid`, the status stored in `s`, and whether `err != nil`. -/
structure WaitResult where
  pid : Int
  status : WaitStatus
  err : Bool
  deriving DecidableEq, Repr

/-- The answers consumed by one loop iteration: the result of `Wait4`, and - if
the iteration gets that far - of `PtraceGetRegs` (`none`: it failed and `regs`
keeps its zero value) and of `readStringArg` (`none`: it failed). -/
structure IterInput where
  wait : WaitResult
  regs : Option PtraceRegs := none
  str : Option String := none
  deriving DecidableEq, Repr

/-! ## Effects: what `Tracer` does, in program order -/

/-- The log lines of the source, one constructor per call site. -/
inductive LogLine where
  | decodeError
  | running (cmd : String) (cmdArgs : List String)
  | jdata (data : String)
  | waitErrorFirst (pid : Int)
  | tracingChild (pid : Int)
  | waitError (pid : Int) (children : Finset Int)
  | childFinished (pid : Int)
  | otherSignalled (pid : Int) (s : WaitStatus)
  | ptraceError
  | resolveError
  | access (pid : Int) (str : String) (mode : Int)
  | stringArgError
  | syscallBasic (pid : Int) (systemcall : SystemCall) (regs : PtraceRegs)
  | exitEvent (pid : Int)
  | cloneEvent (pid : Int)
  | forkEvent (pid : Int)
  | vforkEvent (pid : Int)
  | vforkDoneEvent (pid : Int)
  | execEvent (pid : Int)
  | stopEvent (pid : Int)
  | sigtrap (pid : Int)
  | sigchld (pid : Int)
  | sigstop (pid : Int)
  | unknownStop (pid : Int) (s : WaitStatus) (y : Int)
  deriving DecidableEq

/-- The externally visible actions of `Tracer`. -/
inductive Effect where
  | decodeProfile
  | stdinPipe
  | marshal
  | copy (data : String) (failed : Bool)
  | closePipe
  | start
  | exit (code : Nat)
  | ptraceSetOptions (pid : Int) (options : Nat)
  | ptraceCont (pid : Int) (signal : Int)
  | wait4 (result : WaitResult)
  | ptraceGetRegs (pid : Int)
  | syscallByNum (num : Int)
  | readStringArg (pid : Int) (addr : Nat)
  | getProcessCmdLine (pid : Int)
  | logError (line : LogLine)
  | logInfo (line : LogLine)
  | fmtErrorf
  deriving DecidableEq

/-! ## The loop -/

/-- The variables of `Tracer` that live across iterations of `for done == false`:
the key set of `children` (every stored value is `true`), `done`, and `pid`. -/
structure LoopState where
  children : Finset Int
  done : Bool
  pid : Int

/-- Two loop states are equal when their three variables are. -/
instance : DecidableEq LoopState := fun a b =>
  decidable_of_iff (a.children = b.children ∧ a.done = b.done ∧ a.pid = b.pid)
    (by cases a; cases b; simp)

/-- The options word passed to `PtraceSetOptions`. -/
def traceOptions : Nat :=
  PTRACE_O_TRACESECCOMP ||| PTRACE_O_TRACEFORK ||| PTRACE_O_TRACEVFORK ||| PTRACE_O_TRACECLONE

/-- The case `uint32(unix.SIGTRAP) | (unix.PTRACE_EVENT_SECCOMP << 8)` of the
switch (lines 98-128), for the stop reported for `pid`.  `err` is the variable
`err` as left by `Wait4`. -/
def seccompTrap (env : Env) (pid : Int) (err : Bool) (inp : IterInput) : List Effect :=
  if err then
    [.logError .ptraceError]
  else
    -- var regs syscall.PtraceRegs; err = syscall.PtraceGetRegs(pid, &regs)
    let regs : PtraceRegs := match inp.regs with
      | some r => r
      | none => PtraceRegs.zero
    let e1 : List Effect := [.ptraceGetRegs pid] ++
      (if inp.regs.isNone then [.logError .ptraceError] else [])
    -- systemcall, err := syscallByNum(getSyscallNumber(regs))
    let num := env.getSyscallNumber regs
    match env.syscallByNum num with
    | none => e1 ++ [.syscallByNum num, .logError .resolveError]
    | some systemcall =>
      let e2 : List Effect :=
        if env.getSyscallNumber regs = 21 then
          [.readStringArg pid regs.Rdi] ++
            (match inp.str with
             | some str => [.logInfo (.access pid str (uint64ToInt regs.Rsi))]
             | none => [.logInfo .stringArgError])
        else []
      e1 ++ [.syscallByNum num] ++ e2 ++ [.logInfo (.syscallBasic pid systemcall regs)]

/-- The `switch uint32(s) >> 8` of the loop body for the stop reported for
`pid` (lines 96-164).  No case touches `children` or `done`; all of them end the
iteration, so only the effects are returned.  `err` is the variable `err` as
left by `Wait4`. -/
def classify (env : Env) (pid : Int) (s : WaitStatus) (err : Bool) (inp : IterInput) :
    List Effect :=
  let v := (s % 2 ^ 32) >>> 8
  if v = SIGTRAP ||| (PTRACE_EVENT_SECCOMP <<< 8) then
    seccompTrap env pid err inp
  else if v = SIGTRAP ||| (PTRACE_EVENT_EXIT <<< 8) then
    [.getProcessCmdLine pid, .logError (.exitEvent pid)]
  else if v = SIGTRAP ||| (PTRACE_EVENT_CLONE <<< 8) then
    [.getProcessCmdLine pid, .logError (.cloneEvent pid)]
  else if v = SIGTRAP ||| (PTRACE_EVENT_FORK <<< 8) then
    [.getProcessCmdLine pid, .logError (.forkEvent pid)]
  else if v = SIGTRAP ||| (PTRACE_EVENT_VFORK <<< 8) then
    [.getProcessCmdLine pid, .logError (.vforkEvent pid)]
  else if v = SIGTRAP ||| (PTRACE_EVENT_VFORK_DONE <<< 8) then
    [.getProcessCmdLine pid, .logError (.vforkDoneEvent pid)]
  else if v = SIGTRAP ||| (PTRACE_EVENT_EXEC <<< 8) then
    [.getProcessCmdLine pid, .logError (.execEvent pid)]
  else if v = SIGTRAP ||| (PTRACE_EVENT_STOP <<< 8) then
    [.getProcessCmdLine pid, .logError (.stopEvent pid)]
  else if v = SIGTRAP then
    [.getProcessCmdLine pid, .logError (.sigtrap pid)]
  else if v = SIGCHLD then
    [.getProcessCmdLine pid, .logError (.sigchld pid)]
  else if v = SIGSTOP then
    [.getProcessCmdLine pid, .logError (.sigstop pid)]
  else
    [.getProcessCmdLine pid, .logError (.unknownStop pid s (WaitStatus.StopSignal s))]

/-- One pass through the body of `for done == false` (lines 72-164): the resume
of `pid` at the head, the `Wait4`, and the handling of its result.  Returns the
loop variables at the end of the pass and the effects of the pass. -/
def iteration (env : Env) (st : LoopState) (inp : IterInput) : LoopState × List Effect :=
  let head : List Effect :=
    [.ptraceSetOptions st.pid traceOptions, .ptraceCont st.pid 0, .wait4 inp.wait]
  let pid := inp.wait.pid
  let s := inp.wait.status
  if inp.wait.err then
    (⟨st.children, if st.children.card = 0 then true else st.done, pid⟩,
      head ++ [.logError (.waitError pid st.children)])
  else
    let children := insert pid st.children
    if WaitStatus.Exited s = true then
      let children := children.erase pid
      (⟨children, if children.card = 0 then true else st.done, pid⟩,
        head ++ [.logInfo (.childFinished pid)])
    else if WaitStatus.Signaled s = true then
      (⟨children.erase pid, st.done, pid⟩, head ++ [.logError (.otherSignalled pid s)])
    else
      (⟨children, st.done, pid⟩, head ++ classify env pid s inp.wait.err inp)

/-- The loop `for done == false`, run on the answers `inps` of the operating
system, one element per iteration: the loop variables and the effects once the
loop has exited or the answers are used up, whichever comes first. -/
def loop (env : Env) : LoopState → List IterInput → LoopState × List Effect
  | st, [] => (st, [])
  | st, inp :: rest =>
    if st.done = false then
      let r := iteration env st inp
      let r2 := loop env r.1 rest
      (r2.1, r.2 ++ r2.2)
    else (st, [])

/-- The answers of `inps` that `loop` has used: those of the iterations that
were entered (`done` was false at their head). -/
def executed (env : Env) : LoopState → List IterInput → List IterInput
  | _, [] => []
  | st, inp :: rest =>
    if st.done = false then inp :: executed env (iteration env st inp).1 rest
    else []

/-! ## The whole function -/

/-- The answers `Tracer` gets before the loop: whether decoding the profile
from standard input fails, `os.Args[1]` and `os.Args[2:]`, whether `StdinPipe`
fails, the result of `json.Marshal` (`none`: error), whether `io.Copy` fails,
whether `c.Start` fails, `c.Process.Pid`, the result of the first `Wait4`; and
then the answers for the loop iterations. -/
structure TracerInput where
  decodeErr : Bool
  cmd : String
  cmdArgs : List String
  pipeErr : Bool
  jdata : Option String
  copyErr : Bool
  startErr : Bool
  cpid : Int
  first : WaitResult
  iters : List IterInput

/-- What a run of `Tracer` amounts to: its effects in order, the status passed
to `os.Exit` if it was called, and the loop variables if the loop was reached. -/
structure TracerResult where
  effects : List Effect
  exitCode : Option Nat
  state : Option LoopState

/-- The loop variables at the head of the first iteration (lines 60-70):
`children` holds `c.Process.Pid` and the pid returned by the first `Wait4`,
`done` is false and `pid` is the pid returned by the first `Wait4`. -/
def initialState (cpid : Int) (first : WaitResult) : LoopState :=
  ⟨insert first.pid (insert cpid ∅), false, first.pid⟩

/-- The function `Tracer` (lines 23-168). -/
def Tracer (env : Env) (i : TracerInput) : TracerResult :=
  if i.decodeErr then
    ⟨[.decodeProfile, .logError .decodeError, .exit 1], some 1, none⟩
  else
    let e0 : List Effect := [.decodeProfile, .logInfo (.running i.cmd i.cmdArgs), .stdinPipe]
    if i.pipeErr then
      ⟨e0 ++ [.fmtErrorf, .exit 1], some 1, none⟩
    else
      match i.jdata with
      | none => ⟨e0 ++ [.marshal, .fmtErrorf, .exit 1], some 1, none⟩
      | some jdata =>
        let e1 : List Effect := e0 ++
          [.marshal, .copy jdata i.copyErr, .logInfo (.jdata jdata), .closePipe, .start]
        if i.startErr then
          ⟨e1, none, none⟩
        else
          let e2 : List Effect := e1 ++ [.wait4 i.first] ++
            (if i.first.err then [.logError (.waitErrorFirst i.first.pid)] else []) ++
            [.logInfo (.tracingChild i.first.pid)]
          let r := loop env (initialState i.cpid i.first) i.iters
          ⟨e2 ++ r.2, none, some r.1⟩

/-! ## Vocabulary of the registry invariant -/

/-- A status that ends a process: "exited normally" or "terminated by signal". -/
def WaitStatus.terminal (w : WaitStatus) : Bool :=
  WaitStatus.Exited w || WaitStatus.Signaled w

/-- A call of `Wait4` that succeeded and returned `p`. -/
def WaitResult.returned (w : WaitResult) (p : Int) : Bool := !w.err && w.pid == p

/-- The wait results a run has seen so far, oldest first: the first `Wait4`
before the loop, then the `Wait4` of every iteration that was executed. -/
def waitsOf (env : Env) (cpid : Int) (first : WaitResult) (inps : List IterInput) :
    List WaitResult :=
  first :: (executed env (initialState cpid first) inps).map (fun inp => inp.wait)

/-- "`p` has been observed": it is the launched pid, or a wait call returned it. -/
def observed (cpid : Int) (ws : List WaitResult) (p : Int) : Bool :=
  p == cpid || ws.any (fun w => w.returned p)

/-- "An exit or signal-termination status has been observed for `p`". -/
def exitObserved (ws : List WaitResult) (p : Int) : Bool :=
  ws.any (fun w => w.returned p && WaitStatus.terminal w.status)

/-- The most recent wait result that returned `p`, if there is one. -/
def lastWaitOf (ws : List WaitResult) (p : Int) : Option WaitResult :=
  ws.reverse.find? (fun w => w.returned p)

/-- The most recent wait result that returned `p` exists and carries an exit or
signal-termination status. -/
def lastIsTerminal (ws : List WaitResult) (p : Int) : Bool :=
  match lastWaitOf ws p with
  | some w => WaitStatus.terminal w.status
  | none => false

/-- An instance of the collaborators for evaluating the model on concrete
inputs: the syscall number is read from `Orig_rax` (the amd64 convention) and the
table knows `read` (0) and `access` (21). -/
def exampleEnv : Env where
  getSyscallNumber := fun regs => (regs.Orig_rax : Int)
  syscallByNum := fun num =>
    if num = 0 then some ⟨"read", [INTARG, PTRARG, INTARG]⟩
    else if num = 21 then some ⟨"access", [STRINGARG, INTARG]⟩
    else none

/-- Status of a stop by signal `sig` with ptrace event `event`:
`status >> 8 = sig | event << 8`, low byte `0x7F`. -/
def stopStatus (sig event : Nat) : WaitStatus := ((sig ||| (event <<< 8)) <<< 8) ||| 0x7F

/-- Status of a normal exit with exit code `code`. -/
def exitStatus (code : Nat) : WaitStatus := code <<< 8

/-- A set-options or resume request (`PtraceSetOptions`, `PtraceCont`). -/
def Effect.isResume : Effect → Bool
  | .ptraceSetOptions _ _ => true
  | .ptraceCont _ _ => true
  | _ => false

/-- A call of `Wait4`. -/
def Effect.isWait : Effect → Bool
  | .wait4 _ => true
  | _ => false

/-- An effect on the target: launching it (`c.Start`) or any ptrace or wait
call. -/
def Effect.touchesTarget : Effect → Bool
  | .start => true
  | .ptraceSetOptions _ _ => true
  | .ptraceCont _ _ => true
  | .wait4 _ => true
  | .ptraceGetRegs _ => true
  | _ => false

/-! ## How one iteration and the loop compute -/


theorem iteration_err (env : Env) (st : LoopState) (inp : IterInput)
    (herr : inp.wait.err = true) :
    iteration env st inp =
      (⟨st.children, if st.children.card = 0 then true else st.done, inp.wait.pid⟩,
        [.ptraceSetOptions st.pid traceOptions, .ptraceCont st.pid 0, .wait4 inp.wait,
          .logError (.waitError inp.wait.pid st.children)]) := by
  simp [iteration, herr]

theorem iteration_exited (env : Env) (st : LoopState) (inp : IterInput)
    (herr : inp.wait.err = false) (hex : WaitStatus.Exited inp.wait.status = true) :
    iteration env st inp =
      (⟨st.children.erase inp.wait.pid,
          if (st.children.erase inp.wait.pid).card = 0 then true else st.done, inp.wait.pid⟩,
        [.ptraceSetOptions st.pid traceOptions, .ptraceCont st.pid 0, .wait4 inp.wait,
          .logInfo (.childFinished inp.wait.pid)]) := by
  simp [iteration, herr, hex]

theorem iteration_signaled (env : Env) (st : LoopState) (inp : IterInput)
    (herr : inp.wait.err = false) (hex : WaitStatus.Exited inp.wait.status = false)
    (hsig : WaitStatus.Signaled inp.wait.status = true) :
    iteration env st inp =
      (⟨st.children.erase inp.wait.pid, st.done, inp.wait.pid⟩,
        [.ptraceSetOptions st.pid traceOptions, .ptraceCont st.pid 0, .wait4 inp.wait,
          .logError (.otherSignalled inp.wait.pid inp.wait.status)]) := by
  simp [iteration, herr, hex, hsig]

theorem iteration_stop (env : Env) (st : LoopState) (inp : IterInput)
    (herr : inp.wait.err = false) (hex : WaitStatus.Exited inp.wait.status = false)
    (hsig : WaitStatus.Signaled inp.wait.status = false) :
    iteration env st inp =
      (⟨insert inp.wait.pid st.children, st.done, inp.wait.pid⟩,
        [.ptraceSetOptions st.pid traceOptions, .ptraceCont st.pid 0, .wait4 inp.wait] ++
          classify env inp.wait.pid inp.wait.status false inp) := by
  simp [iteration, herr, hex, hsig]

theorem iteration_mem (env : Env) (st : LoopState) (inp : IterInput) (p : Int) :
    p ∈ (iteration env st inp).1.children ↔
      (if inp.wait.returned p = true then WaitStatus.terminal inp.wait.status = false
       else p ∈ st.children) := by
  cases herr : inp.wait.err
  · cases hex : WaitStatus.Exited inp.wait.status
    · cases hsig : WaitStatus.Signaled inp.wait.status
      · rw [iteration_stop env st inp herr hex hsig]
        by_cases hp : inp.wait.pid = p
        · simp [WaitResult.returned, WaitStatus.terminal, herr, hex, hsig, hp]
        · have hp2 : ¬ p = inp.wait.pid := fun h => hp h.symm
          simp [WaitResult.returned, herr, hp, hp2]
      · rw [iteration_signaled env st inp herr hex hsig]
        by_cases hp : inp.wait.pid = p
        · simp [WaitResult.returned, WaitStatus.terminal, herr, hex, hsig, hp]
        · have hp2 : ¬ p = inp.wait.pid := fun h => hp h.symm
          simp [WaitResult.returned, herr, hp, hp2]
    · rw [iteration_exited env st inp herr hex]
      by_cases hp : inp.wait.pid = p
      · simp [WaitResult.returned, WaitStatus.terminal, herr, hex, hp]
      · have hp2 : ¬ p = inp.wait.pid := fun h => hp h.symm
        simp [WaitResult.returned, herr, hp, hp2]
  · rw [iteration_err env st inp herr]
    simp [WaitResult.returned, herr]

theorem loop_nil (env : Env) (st : LoopState) : loop env st [] = (st, []) := by
  cases st; rfl

theorem loop_cons_running (env : Env) (st : LoopState) (inp : IterInput)
    (rest : List IterInput) (hrun : st.done = false) :
    loop env st (inp :: rest) =
      ((loop env (iteration env st inp).1 rest).1,
        (iteration env st inp).2 ++ (loop env (iteration env st inp).1 rest).2) := by
  simp [loop, hrun]

theorem loop_done (env : Env) (st : LoopState) (inps : List IterInput)
    (hdone : st.done = true) : loop env st inps = (st, []) := by
  cases inps with
  | nil => exact loop_nil env st
  | cons inp rest => simp [loop, hdone]

theorem executed_cons_running (env : Env) (st : LoopState) (inp : IterInput)
    (rest : List IterInput) (hrun : st.done = false) :
    executed env st (inp :: rest) = inp :: executed env (iteration env st inp).1 rest := by
  simp [executed, hrun]

theorem executed_done (env : Env) (st : LoopState) (inps : List IterInput)
    (hdone : st.done = true) : executed env st inps = [] := by
  cases inps with
  | nil => rfl
  | cons inp rest => simp [executed, hdone]

theorem lastWaitOf_cons (w : WaitResult) (ws : List WaitResult) (p : Int) :
    lastWaitOf (w :: ws) p =
      (lastWaitOf ws p).or (if w.returned p = true then some w else none) := by
  unfold lastWaitOf
  rw [List.reverse_cons, List.find?_append]
  congr 1
  by_cases h : w.returned p = true <;> simp [List.find?, h]

theorem loop_mem (env : Env) (inps : List IterInput) (st : LoopState) (p : Int) :
    p ∈ (loop env st inps).1.children ↔
      (match lastWaitOf ((executed env st inps).map (fun inp => inp.wait)) p with
       | some w => WaitStatus.terminal w.status = false
       | none => p ∈ st.children) := by
  induction inps generalizing st with
  | nil => simp [loop_nil, executed, lastWaitOf]
  | cons inp rest ih =>
    cases hdone : st.done
    · rw [loop_cons_running env st inp rest hdone, executed_cons_running env st inp rest hdone]
      rw [List.map_cons, lastWaitOf_cons]
      have h := ih (iteration env st inp).1
      simp only [] at h ⊢
      rw [h]
      cases hl : lastWaitOf ((executed env (iteration env st inp).1 rest).map
          (fun inp => inp.wait)) p with
      | some w => simp
      | none =>
        simp only [Option.or]
        rw [iteration_mem]
        by_cases hr : inp.wait.returned p = true <;> simp [hr]
    · rw [loop_done env st _ hdone, executed_done env st _ hdone]
      simp [lastWaitOf]

theorem lastWaitOf_some (ws : List WaitResult) (p : Int) (w : WaitResult)
    (h : lastWaitOf ws p = some w) : w ∈ ws ∧ w.returned p = true := by
  unfold lastWaitOf at h
  exact ⟨List.mem_reverse.mp (List.mem_of_find?_eq_some h), by simpa using List.find?_some h⟩

theorem lastWaitOf_none (ws : List WaitResult) (p : Int)
    (h : lastWaitOf ws p = none) : ws.any (fun w => w.returned p) = false := by
  unfold lastWaitOf at h
  rw [List.find?_eq_none] at h
  rw [Bool.eq_false_iff]
  intro hany
  rw [List.any_eq_true] at hany
  obtain ⟨w, hw, hr⟩ := hany
  exact h w (List.mem_reverse.mpr hw) hr

/-- C1 (as stated) fails.  Run A: the launched pid 7 is returned by the first
wait with the status "exited normally"; it is observed, an exit status has been
observed for it, and it is a key of `children`.  Run B: pid 8 stops, exits and is
returned again by a later wait (a reused pid); it is a key of `children` although
an exit status has been observed for it. -/
theorem registry_invariant_as_stated_fails :
    ¬ ((7 : Int) ∈ (loop exampleEnv (initialState 7 ⟨7, exitStatus 0, false⟩) []).1.children ↔
        (observed 7 (waitsOf exampleEnv 7 ⟨7, exitStatus 0, false⟩ []) 7 = true ∧
          exitObserved (waitsOf exampleEnv 7 ⟨7, exitStatus 0, false⟩ []) 7 = false)) ∧
    ¬ ((8 : Int) ∈ (loop exampleEnv (initialState 7 ⟨7, stopStatus SIGTRAP 0, false⟩)
          [⟨⟨8, stopStatus SIGSTOP 0, false⟩, none, none⟩, ⟨⟨8, exitStatus 0, false⟩, none, none⟩,
            ⟨⟨8, stopStatus SIGSTOP 0, false⟩, none, none⟩]).1.children ↔
        (observed 7 (waitsOf exampleEnv 7 ⟨7, stopStatus SIGTRAP 0, false⟩
          [⟨⟨8, stopStatus SIGSTOP 0, false⟩, none, none⟩, ⟨⟨8, exitStatus 0, false⟩, none, none⟩,
            ⟨⟨8, stopStatus SIGSTOP 0, false⟩, none, none⟩]) 8 = true ∧
          exitObserved (waitsOf exampleEnv 7 ⟨7, stopStatus SIGTRAP 0, false⟩
          [⟨⟨8, stopStatus SIGSTOP 0, false⟩, none, none⟩, ⟨⟨8, exitStatus 0, false⟩, none, none⟩,
            ⟨⟨8, stopStatus SIGSTOP 0, false⟩, none, none⟩]) 8 = false)) := by
  constructor <;> decide

/-- C1 (amended).  In a run whose first wait succeeded with a status that is
neither "exited normally" nor "terminated by signal", at every point (after the
first wait and after each executed iteration) a pid `p` is a key of `children`
if and only if it has been observed (it is the launched pid, or a successful wait
returned it) and the most recent wait result that returned it, if any, is not an
exit or signal-termination status. -/
theorem registry_invariant (env : Env) (cpid : Int) (first : WaitResult)
    (inps : List IterInput) (p : Int)
    (hok : first.err = false) (hstop : WaitStatus.terminal first.status = false) :
    p ∈ (loop env (initialState cpid first) inps).1.children ↔
      (observed cpid (waitsOf env cpid first inps) p = true ∧
        lastIsTerminal (waitsOf env cpid first inps) p = false) := by
  rw [loop_mem]
  unfold lastIsTerminal observed waitsOf
  rw [lastWaitOf_cons]
  cases hl : lastWaitOf ((executed env (initialState cpid first) inps).map
      (fun inp => inp.wait)) p with
  | some w =>
    obtain ⟨hmem, hret⟩ := lastWaitOf_some _ _ _ hl
    have hany : ((executed env (initialState cpid first) inps).map
        (fun inp => inp.wait)).any (fun w => w.returned p) = true :=
      List.any_eq_true.mpr ⟨w, hmem, hret⟩
    simp [Option.or, hany]
  | none =>
    have hany := lastWaitOf_none _ _ hl
    by_cases hp : first.pid = p
    · have hr : first.returned p = true := by simp [WaitResult.returned, hok, hp]
      rw [List.any_cons, hany, hr]
      simp [Option.or, hstop, initialState, hp]
    · have hr : first.returned p = false := by simp [WaitResult.returned, hok, hp]
      have hp2 : ¬ p = first.pid := fun h => hp h.symm
      rw [List.any_cons, hany, hr]
      simp [Option.or, initialState, hp2]

/-- Witness of `registry_invariant`: parent 7 is launched and stops at its exec,
child 8 stops and then exits; 8 is no longer a key and 7 still is. -/
theorem registry_invariant_witness :
    ((8 : Int) ∈ (loop exampleEnv (initialState 7 ⟨7, stopStatus SIGTRAP 0, false⟩)
          [⟨⟨8, stopStatus SIGSTOP 0, false⟩, none, none⟩,
            ⟨⟨8, exitStatus 0, false⟩, none, none⟩]).1.children ↔
      (observed 7 (waitsOf exampleEnv 7 ⟨7, stopStatus SIGTRAP 0, false⟩
          [⟨⟨8, stopStatus SIGSTOP 0, false⟩, none, none⟩,
            ⟨⟨8, exitStatus 0, false⟩, none, none⟩]) 8 = true ∧
        lastIsTerminal (waitsOf exampleEnv 7 ⟨7, stopStatus SIGTRAP 0, false⟩
          [⟨⟨8, stopStatus SIGSTOP 0, false⟩, none, none⟩,
            ⟨⟨8, exitStatus 0, false⟩, none, none⟩]) 8 = false)) ∧
    (8 : Int) ∉ (loop exampleEnv (initialState 7 ⟨7, stopStatus SIGTRAP 0, false⟩)
          [⟨⟨8, stopStatus SIGSTOP 0, false⟩, none, none⟩,
            ⟨⟨8, exitStatus 0, false⟩, none, none⟩]).1.children ∧
    (7 : Int) ∈ (loop exampleEnv (initialState 7 ⟨7, stopStatus SIGTRAP 0, false⟩)
          [⟨⟨8, stopStatus SIGSTOP 0, false⟩, none, none⟩,
            ⟨⟨8, exitStatus 0, false⟩, none, none⟩]).1.children :=
  ⟨registry_invariant exampleEnv 7 ⟨7, stopStatus SIGTRAP 0, false⟩
      [⟨⟨8, stopStatus SIGSTOP 0, false⟩, none, none⟩, ⟨⟨8, exitStatus 0, false⟩, none, none⟩] 8
      (by decide) (by decide), by decide, by decide⟩

theorem iteration_done_empty (env : Env) (st : LoopState) (inp : IterInput)
    (hrun : st.done = false) (hdone : (iteration env st inp).1.done = true) :
    (iteration env st inp).1.children = ∅ := by
  cases herr : inp.wait.err
  · cases hex : WaitStatus.Exited inp.wait.status
    · cases hsig : WaitStatus.Signaled inp.wait.status
      · rw [iteration_stop env st inp herr hex hsig] at hdone
        simp [hrun] at hdone
      · rw [iteration_signaled env st inp herr hex hsig] at hdone
        simp [hrun] at hdone
    · rw [iteration_exited env st inp herr hex] at hdone ⊢
      simpa [hrun] using hdone
  · rw [iteration_err env st inp herr] at hdone ⊢
    simpa [hrun] using hdone

theorem loop_done_empty (env : Env) (inps : List IterInput) (st : LoopState)
    (hinv : st.done = true → st.children = ∅)
    (hdone : (loop env st inps).1.done = true) : (loop env st inps).1.children = ∅ := by
  induction inps generalizing st with
  | nil =>
    rw [loop_nil] at hdone ⊢
    exact hinv hdone
  | cons inp rest ih =>
    cases hd : st.done
    · rw [loop_cons_running env st inp rest hd] at hdone ⊢
      exact ih _ (iteration_done_empty env st inp hd) hdone
    · rw [loop_done env st _ hd] at hdone ⊢
      exact hinv hdone

theorem Tracer_state (env : Env) (i : TracerInput) (st : LoopState)
    (h : (Tracer env i).state = some st) :
    st = (loop env (initialState i.cpid i.first) i.iters).1 := by
  unfold Tracer at h
  split at h
  · simp at h
  · split at h
    · simp at h
    · split at h
      · simp at h
      · split at h
        · simp at h
        · simp only [Option.some.injEq] at h
          exact h.symm

/-- C2.  In every run of `Tracer`, whatever the wait results (successes with any
status, failures), when the loop variables have `done` true the `children`
registry is empty. -/
theorem done_only_when_registry_empty (env : Env) (i : TracerInput) (st : LoopState)
    (hst : (Tracer env i).state = some st) (hdone : st.done = true) :
    st.children = ∅ := by
  rw [Tracer_state env i st hst] at hdone ⊢
  exact loop_done_empty env _ _ (by simp [initialState]) hdone

/-- Witness of `done_only_when_registry_empty`: the target stops at its exec and
then exits with status 0. -/
theorem done_only_when_registry_empty_witness :
    (Tracer exampleEnv ⟨false, "/bin/true", [], false, some "\x7b\x7d", false, false, 7,
        ⟨7, stopStatus SIGTRAP 0, false⟩, [⟨⟨7, exitStatus 0, false⟩, none, none⟩]⟩).state =
      some ⟨∅, true, 7⟩ ∧
    (⟨∅, true, 7⟩ : LoopState).children = ∅ :=
  ⟨by decide,
    done_only_when_registry_empty exampleEnv ⟨false, "/bin/true", [], false, some "\x7b\x7d", false,
      false, 7, ⟨7, stopStatus SIGTRAP 0, false⟩, [⟨⟨7, exitStatus 0, false⟩, none, none⟩]⟩
      ⟨∅, true, 7⟩ (by decide) (by decide)⟩

theorem Exited_exitStatus (code : Nat) : WaitStatus.Exited (exitStatus code) = true := by
  have h : (code <<< 8) &&& (2 ^ 7 - 1) = 0 := by
    rw [Nat.and_pow_two_sub_one_eq_mod, Nat.shiftLeft_eq]
    omega
  simpa [WaitStatus.Exited, exitStatus] using h

theorem terminal_stopStatus (sig event : Nat) :
    WaitStatus.terminal (stopStatus sig event) = false := by
  have h : (((sig ||| (event <<< 8)) <<< 8) ||| 0x7F) &&& (2 ^ 7 - 1) = 0x7F := by
    rw [Nat.and_distrib_right, Nat.and_pow_two_sub_one_eq_mod, Nat.shiftLeft_eq (sig ||| _)]
    have : (sig ||| event <<< 8) * 2 ^ 8 % 2 ^ 7 = 0 := by omega
    rw [this]
    decide
  have h2 : (((sig ||| (event <<< 8)) <<< 8) ||| 127) &&& 127 = 127 := h
  simp [WaitStatus.terminal, WaitStatus.Exited, WaitStatus.Signaled, stopStatus, h2]

theorem iteration_head (env : Env) (st : LoopState) (inp : IterInput) :
    ∃ tail, (iteration env st inp).2 =
      .ptraceSetOptions st.pid traceOptions :: .ptraceCont st.pid 0 :: .wait4 inp.wait :: tail := by
  cases herr : inp.wait.err
  · cases hex : WaitStatus.Exited inp.wait.status
    · cases hsig : WaitStatus.Signaled inp.wait.status
      · exact ⟨_, by rw [iteration_stop env st inp herr hex hsig]; rfl⟩
      · exact ⟨_, by rw [iteration_signaled env st inp herr hex hsig]⟩
    · exact ⟨_, by rw [iteration_exited env st inp herr hex]⟩
  · exact ⟨_, by rw [iteration_err env st inp herr]⟩

theorem iteration_pid (env : Env) (st : LoopState) (inp : IterInput) :
    (iteration env st inp).1.pid = inp.wait.pid := by
  cases herr : inp.wait.err
  · cases hex : WaitStatus.Exited inp.wait.status
    · cases hsig : WaitStatus.Signaled inp.wait.status
      · rw [iteration_stop env st inp herr hex hsig]
      · rw [iteration_signaled env st inp herr hex hsig]
    · rw [iteration_exited env st inp herr hex]
  · rw [iteration_err env st inp herr]

theorem loop_two_running (env : Env) (st : LoopState) (inp inp2 : IterInput)
    (rest : List IterInput) (hrun : st.done = false)
    (hrun2 : (iteration env st inp).1.done = false) :
    ∃ tail, (loop env st (inp :: inp2 :: rest)).2 =
      (iteration env st inp).2 ++
        (.ptraceSetOptions inp.wait.pid traceOptions :: .ptraceCont inp.wait.pid 0 ::
          .wait4 inp2.wait :: tail) := by
  obtain ⟨tail, htail⟩ := iteration_head env (iteration env st inp).1 inp2
  rw [iteration_pid] at htail
  refine ⟨tail ++ (loop env (iteration env (iteration env st inp).1 inp2).1 rest).2, ?_⟩
  rw [loop_cons_running env st inp _ hrun, loop_cons_running env _ inp2 rest hrun2, htail]
  simp

/-- C3.  In an iteration (entered with `done` false) whose wait succeeds with a
status that is "exited normally", the registry becomes the previous registry
with `pid` removed, the only effects are the resume at the head, the wait and the
"finished" log line (no trap classification), and `done` is set if and only if
the resulting registry is empty; a status built from any exit code is "exited
normally"; and from the registry `{pid}` the exit of `pid` empties the registry
and ends the loop with no further effect. -/
theorem normal_exit_handling (env : Env) (st : LoopState) (inp : IterInput)
    (hrun : st.done = false) (herr : inp.wait.err = false)
    (hex : WaitStatus.Exited inp.wait.status = true) :
    (iteration env st inp).1.children = st.children.erase inp.wait.pid ∧
    (iteration env st inp).2 =
      [.ptraceSetOptions st.pid traceOptions, .ptraceCont st.pid 0, .wait4 inp.wait,
        .logInfo (.childFinished inp.wait.pid)] ∧
    ((iteration env st inp).1.done = true ↔ (iteration env st inp).1.children = ∅) ∧
    (∀ code : Nat, WaitStatus.Exited (exitStatus code) = true) ∧
    (st.children = {inp.wait.pid} → ∀ rest : List IterInput,
      loop env st (inp :: rest) = (⟨∅, true, inp.wait.pid⟩, (iteration env st inp).2)) := by
  refine ⟨?_, ?_, ?_, Exited_exitStatus, ?_⟩
  · rw [iteration_exited env st inp herr hex]
  · rw [iteration_exited env st inp herr hex]
  · rw [iteration_exited env st inp herr hex]
    simp [hrun]
  · intro hone rest
    have hit : iteration env st inp = (⟨∅, true, inp.wait.pid⟩,
        [.ptraceSetOptions st.pid traceOptions, .ptraceCont st.pid 0, .wait4 inp.wait,
          .logInfo (.childFinished inp.wait.pid)]) := by
      rw [iteration_exited env st inp herr hex]
      simp [hone]
    rw [loop_cons_running env st inp rest hrun, hit, loop_done env _ rest rfl]
    simp

/-- Witness of `normal_exit_handling`: after the attach stop of pid 7 the
registry is `{7}`; pid 7 exits with exit code 5 (the number of SIGTRAP). -/
theorem normal_exit_handling_witness :
    (iteration exampleEnv (initialState 7 ⟨7, stopStatus SIGTRAP 0, false⟩)
        ⟨⟨7, exitStatus SIGTRAP, false⟩, none, none⟩).1 = ⟨∅, true, 7⟩ ∧
    (iteration exampleEnv (initialState 7 ⟨7, stopStatus SIGTRAP 0, false⟩)
        ⟨⟨7, exitStatus SIGTRAP, false⟩, none, none⟩).2 =
      [.ptraceSetOptions 7 traceOptions, .ptraceCont 7 0, .wait4 ⟨7, exitStatus SIGTRAP, false⟩,
        .logInfo (.childFinished 7)] ∧
    loop exampleEnv (initialState 7 ⟨7, stopStatus SIGTRAP 0, false⟩)
        [⟨⟨7, exitStatus SIGTRAP, false⟩, none, none⟩,
          ⟨⟨7, stopStatus SIGTRAP 0, false⟩, none, none⟩] =
      (⟨∅, true, 7⟩, (iteration exampleEnv (initialState 7 ⟨7, stopStatus SIGTRAP 0, false⟩)
        ⟨⟨7, exitStatus SIGTRAP, false⟩, none, none⟩).2) :=
  ⟨by decide,
    (normal_exit_handling exampleEnv (initialState 7 ⟨7, stopStatus SIGTRAP 0, false⟩)
      ⟨⟨7, exitStatus SIGTRAP, false⟩, none, none⟩ (by decide) (by decide) (by decide)).2.1,
    (normal_exit_handling exampleEnv (initialState 7 ⟨7, stopStatus SIGTRAP 0, false⟩)
      ⟨⟨7, exitStatus SIGTRAP, false⟩, none, none⟩ (by decide) (by decide)
      (by decide)).2.2.2.2 (by decide) [⟨⟨7, stopStatus SIGTRAP 0, false⟩, none, none⟩]⟩

/-- C4 (the code at the failing input).  The only registered process, pid 7, is
killed by SIGKILL (status 9): the iteration empties the registry and leaves
`done` false, and the loop goes through another resume and another wait; it ends
only when that wait fails. -/
theorem signal_termination_of_last_process (env : Env) :
    (iteration env ⟨{7}, false, 7⟩ ⟨⟨7, 9, false⟩, none, none⟩).1 = ⟨∅, false, 7⟩ ∧
    loop env ⟨{7}, false, 7⟩ [⟨⟨7, 9, false⟩, none, none⟩, ⟨⟨-1, 0, true⟩, none, none⟩] =
      (⟨∅, true, -1⟩,
        [.ptraceSetOptions 7 traceOptions, .ptraceCont 7 0, .wait4 ⟨7, 9, false⟩,
          .logError (.otherSignalled 7 9),
          .ptraceSetOptions 7 traceOptions, .ptraceCont 7 0, .wait4 ⟨-1, 0, true⟩,
          .logError (.waitError (-1) ∅)]) := by
  have h1 : iteration env ⟨{7}, false, 7⟩ ⟨⟨7, 9, false⟩, none, none⟩ =
      (⟨∅, false, 7⟩, [.ptraceSetOptions 7 traceOptions, .ptraceCont 7 0, .wait4 ⟨7, 9, false⟩,
          .logError (.otherSignalled 7 9)]) := by
    rw [iteration_signaled env _ _ rfl (by decide) (by decide)]
    simp
  have h2 : iteration env ⟨∅, false, 7⟩ ⟨⟨-1, 0, true⟩, none, none⟩ =
      (⟨∅, true, -1⟩, [.ptraceSetOptions 7 traceOptions, .ptraceCont 7 0,
          .wait4 ⟨-1, 0, true⟩, .logError (.waitError (-1) ∅)]) := by
    rw [iteration_err env _ _ rfl]
    simp
  refine ⟨by rw [h1], ?_⟩
  rw [loop_cons_running env _ _ _ rfl, h1, loop_cons_running env _ _ _ rfl, h2, loop_nil]
  simp

/-- C5.  In an iteration whose wait succeeds with a status that is neither
"exited normally" nor "terminated by signal" (whatever `status >> 8` is, and
whatever the register read and the syscall resolution give), `done` is
unchanged, the registry is the previous one with `pid` inserted (nothing is
removed), and the next iteration begins by setting the options on and resuming
that same `pid`; when the loop is running, that next iteration does take place. -/
theorem resume_invariant (env : Env) (st : LoopState) (inp : IterInput)
    (herr : inp.wait.err = false) (hex : WaitStatus.Exited inp.wait.status = false)
    (hsig : WaitStatus.Signaled inp.wait.status = false) :
    (iteration env st inp).1.done = st.done ∧
    (iteration env st inp).1.children = insert inp.wait.pid st.children ∧
    st.children ⊆ (iteration env st inp).1.children ∧
    (∀ inp2 : IterInput, ∃ tail, (iteration env (iteration env st inp).1 inp2).2 =
      .ptraceSetOptions inp.wait.pid traceOptions :: .ptraceCont inp.wait.pid 0 ::
        .wait4 inp2.wait :: tail) ∧
    (st.done = false → ∀ (inp2 : IterInput) (rest : List IterInput), ∃ tail,
      (loop env st (inp :: inp2 :: rest)).2 = (iteration env st inp).2 ++
        (.ptraceSetOptions inp.wait.pid traceOptions :: .ptraceCont inp.wait.pid 0 ::
          .wait4 inp2.wait :: tail)) := by
  have hit := iteration_stop env st inp herr hex hsig
  refine ⟨by rw [hit], by rw [hit], ?_, ?_, ?_⟩
  · rw [hit]
    exact Finset.subset_insert _ _
  · intro inp2
    obtain ⟨tail, htail⟩ := iteration_head env (iteration env st inp).1 inp2
    rw [iteration_pid] at htail
    exact ⟨tail, htail⟩
  · intro hrun inp2 rest
    exact loop_two_running env st inp inp2 rest hrun (by rw [hit]; exact hrun)

/-- Witness of `resume_invariant`: a seccomp trap of pid 8 for which the
register read fails, with the parent 7 registered. -/
theorem resume_invariant_witness :
    (iteration exampleEnv ⟨{7}, false, 7⟩
        ⟨⟨8, stopStatus SIGTRAP PTRACE_EVENT_SECCOMP, false⟩, none, none⟩).1 =
      ⟨{7, 8}, false, 8⟩ ∧
    (∀ inp2 : IterInput, ∃ tail, (iteration exampleEnv (iteration exampleEnv ⟨{7}, false, 7⟩
        ⟨⟨8, stopStatus SIGTRAP PTRACE_EVENT_SECCOMP, false⟩, none, none⟩).1 inp2).2 =
      .ptraceSetOptions 8 traceOptions :: .ptraceCont 8 0 :: .wait4 inp2.wait :: tail) ∧
    (∃ tail, (loop exampleEnv ⟨{7}, false, 7⟩
        [⟨⟨8, stopStatus SIGTRAP PTRACE_EVENT_SECCOMP, false⟩, none, none⟩,
          ⟨⟨8, exitStatus 0, false⟩, none, none⟩]).2 =
      (iteration exampleEnv ⟨{7}, false, 7⟩
        ⟨⟨8, stopStatus SIGTRAP PTRACE_EVENT_SECCOMP, false⟩, none, none⟩).2 ++
        (.ptraceSetOptions 8 traceOptions :: .ptraceCont 8 0 ::
          .wait4 ⟨8, exitStatus 0, false⟩ :: tail)) :=
  ⟨by decide,
    (resume_invariant exampleEnv ⟨{7}, false, 7⟩
      ⟨⟨8, stopStatus SIGTRAP PTRACE_EVENT_SECCOMP, false⟩, none, none⟩
      (by decide) (by decide) (by decide)).2.2.2.1,
    (resume_invariant exampleEnv ⟨{7}, false, 7⟩
      ⟨⟨8, stopStatus SIGTRAP PTRACE_EVENT_SECCOMP, false⟩, none, none⟩
      (by decide) (by decide) (by decide)).2.2.2.2 (by decide)
      ⟨⟨8, exitStatus 0, false⟩, none, none⟩ []⟩

/-- C6.  In an iteration (entered with `done` false) whose wait fails, the
registry is unchanged, the only effects are the resume at the head, the wait and
the error log line (no exit, signal or trap handling), and `done` is set if and
only if the registry is empty; with a non-empty registry the loop goes on to the
next iteration. -/
theorem wait_failure_handling (env : Env) (st : LoopState) (inp : IterInput)
    (hrun : st.done = false) (herr : inp.wait.err = true) :
    (iteration env st inp).1.children = st.children ∧
    (iteration env st inp).2 =
      [.ptraceSetOptions st.pid traceOptions, .ptraceCont st.pid 0, .wait4 inp.wait,
        .logError (.waitError inp.wait.pid st.children)] ∧
    ((iteration env st inp).1.done = true ↔ st.children = ∅) ∧
    (st.children ≠ ∅ → ∀ (inp2 : IterInput) (rest : List IterInput), ∃ tail,
      (loop env st (inp :: inp2 :: rest)).2 = (iteration env st inp).2 ++
        (.ptraceSetOptions inp.wait.pid traceOptions :: .ptraceCont inp.wait.pid 0 ::
          .wait4 inp2.wait :: tail)) := by
  have hit := iteration_err env st inp herr
  refine ⟨by rw [hit], by rw [hit], ?_, ?_⟩
  · rw [hit]
    simp [hrun]
  · intro hne inp2 rest
    refine loop_two_running env st inp inp2 rest hrun ?_
    rw [hit]
    simp [hrun, hne]

/-- Witness of `wait_failure_handling`: a failing wait while pid 7 is
registered; the registry stays `{7}` and `done` stays false. -/
theorem wait_failure_handling_witness :
    (iteration exampleEnv ⟨{7}, false, 7⟩ ⟨⟨-1, 0, true⟩, none, none⟩).1 = ⟨{7}, false, -1⟩ ∧
    (iteration exampleEnv ⟨{7}, false, 7⟩ ⟨⟨-1, 0, true⟩, none, none⟩).2 =
      [.ptraceSetOptions 7 traceOptions, .ptraceCont 7 0, .wait4 ⟨-1, 0, true⟩,
        .logError (.waitError (-1) {7})] ∧
    (∃ tail, (loop exampleEnv ⟨{7}, false, 7⟩
        [⟨⟨-1, 0, true⟩, none, none⟩, ⟨⟨7, exitStatus 0, false⟩, none, none⟩]).2 =
      (iteration exampleEnv ⟨{7}, false, 7⟩ ⟨⟨-1, 0, true⟩, none, none⟩).2 ++
        (.ptraceSetOptions (-1) traceOptions :: .ptraceCont (-1) 0 ::
          .wait4 ⟨7, exitStatus 0, false⟩ :: tail)) :=
  ⟨by decide,
    (wait_failure_handling exampleEnv ⟨{7}, false, 7⟩ ⟨⟨-1, 0, true⟩, none, none⟩
      (by decide) (by decide)).2.1,
    (wait_failure_handling exampleEnv ⟨{7}, false, 7⟩ ⟨⟨-1, 0, true⟩, none, none⟩
      (by decide) (by decide)).2.2.2 (by decide) ⟨⟨7, exitStatus 0, false⟩, none, none⟩ []⟩

theorem loop_keeps (env : Env) (q : Int) (mid : List IterInput) (st : LoopState)
    (hq : q ∈ st.children)
    (hmid : ∀ m ∈ mid, m.wait.returned q = true → WaitStatus.terminal m.wait.status = false) :
    q ∈ (loop env st mid).1.children := by
  induction mid generalizing st with
  | nil => rw [loop_nil]; exact hq
  | cons m rest ih =>
    cases hd : st.done
    · rw [loop_cons_running env st m rest hd]
      refine ih _ ?_ (fun x hx => hmid x (List.mem_cons_of_mem _ hx))
      rw [iteration_mem]
      by_cases hr : m.wait.returned q = true
      · simpa [hr] using hmid m (List.mem_cons_self _ _) hr
      · simpa [hr] using hq
    · rw [loop_done env st _ hd]
      exact hq

theorem loop_append_fst (env : Env) (a b : List IterInput) (st : LoopState) :
    (loop env st (a ++ b)).1 = (loop env (loop env st a).1 b).1 := by
  induction a generalizing st with
  | nil => rw [List.nil_append, loop_nil]
  | cons x a ih =>
    cases hd : st.done
    · rw [List.cons_append, loop_cons_running env st x _ hd, loop_cons_running env st x a hd]
      exact ih _
    · rw [loop_done env st _ hd, loop_done env st _ hd, loop_done env st _ hd]

/-- C9.  With parent `p` registered and child `c` not registered (so `c` differs
from `p`), the iteration whose wait first returns `c` with a non-terminating
status makes the registry one larger and `c` a key; after any further iterations
`mid` in which neither `p` nor `c` is reported exited or signalled, the
iteration whose wait returns a normal exit of `c` makes the registry one
smaller, leaves `p` a key, leaves the registry non-empty and `done` false; and
this is what the loop does on those wait results. -/
theorem fork_then_exit (env : Env) (st : LoopState) (p c : Int)
    (discover leave : IterInput) (mid : List IterInput)
    (hrun : st.done = false) (hp : p ∈ st.children) (hc : c ∉ st.children)
    (hd : discover.wait.returned c = true)
    (hdstop : WaitStatus.terminal discover.wait.status = false)
    (hmid : ∀ m ∈ mid, (m.wait.returned p = true ∨ m.wait.returned c = true) →
      WaitStatus.terminal m.wait.status = false)
    (hl : leave.wait.returned c = true)
    (hlex : WaitStatus.Exited leave.wait.status = true) :
    c ≠ p ∧
    (iteration env st discover).1.children.card = st.children.card + 1 ∧
    c ∈ (iteration env st discover).1.children ∧
    (iteration env (loop env (iteration env st discover).1 mid).1 leave).1.children.card + 1 =
      (loop env (iteration env st discover).1 mid).1.children.card ∧
    p ∈ (iteration env (loop env (iteration env st discover).1 mid).1 leave).1.children ∧
    (iteration env (loop env (iteration env st discover).1 mid).1 leave).1.children ≠ ∅ ∧
    (iteration env (loop env (iteration env st discover).1 mid).1 leave).1.done = false ∧
    (loop env st (discover :: (mid ++ [leave]))).1 =
      (iteration env (loop env (iteration env st discover).1 mid).1 leave).1 := by
  have hne : c ≠ p := fun h => hc (h ▸ hp)
  simp only [WaitResult.returned, Bool.and_eq_true, Bool.not_eq_true', beq_iff_eq] at hd hl
  obtain ⟨hderr, hdpid⟩ := hd
  obtain ⟨hlerr, hlpid⟩ := hl
  simp only [WaitStatus.terminal, Bool.or_eq_false_iff] at hdstop
  have h1 := iteration_stop env st discover hderr hdstop.1 hdstop.2
  have hc1 : c ∈ (iteration env st discover).1.children := by
    rw [h1]; simp [hdpid]
  have hp1 : p ∈ (iteration env st discover).1.children := by
    rw [h1]; simp [hp]
  have hrun1 : (iteration env st discover).1.done = false := by rw [h1]; exact hrun
  have hc2 : c ∈ (loop env (iteration env st discover).1 mid).1.children :=
    loop_keeps env c mid _ hc1 (fun m hm hr => hmid m hm (Or.inr hr))
  have hp2 : p ∈ (loop env (iteration env st discover).1 mid).1.children :=
    loop_keeps env p mid _ hp1 (fun m hm hr => hmid m hm (Or.inl hr))
  have hrun2 : (loop env (iteration env st discover).1 mid).1.done = false := by
    cases hdone : (loop env (iteration env st discover).1 mid).1.done
    · rfl
    · have := loop_done_empty env mid _ (by simp [hrun1]) hdone
      rw [this] at hp2
      simp at hp2
  have h3 := iteration_exited env (loop env (iteration env st discover).1 mid).1 leave hlerr hlex
  have hp3 : p ∈ (iteration env (loop env (iteration env st discover).1 mid).1 leave).1.children := by
    rw [h3]
    simp only [hlpid]
    exact Finset.mem_erase.mpr ⟨fun h => hne h.symm, hp2⟩
  have hne3 : (iteration env (loop env (iteration env st discover).1 mid).1 leave).1.children ≠ ∅ :=
    fun h => by rw [h] at hp3; simp at hp3
  refine ⟨hne, ?_, hc1, ?_, hp3, hne3, ?_, ?_⟩
  · rw [h1]
    simp only [hdpid]
    exact Finset.card_insert_of_not_mem hc
  · rw [h3]
    simp only [hlpid]
    have hpos : 0 < (loop env (iteration env st discover).1 mid).1.children.card :=
      Finset.card_pos.mpr ⟨c, hc2⟩
    rw [Finset.card_erase_of_mem hc2]
    omega
  · have hcard : (iteration env (loop env (iteration env st discover).1 mid).1 leave).1.children.card
        ≠ 0 := fun h => hne3 (Finset.card_eq_zero.mp h)
    rw [h3] at hcard ⊢
    simp only [] at hcard ⊢
    rw [if_neg hcard]
    exact hrun2
  · rw [loop_cons_running env st discover _ hrun]
    simp only []
    rw [loop_append_fst, loop_cons_running env _ leave [] hrun2, loop_nil]

/-- Witness of `fork_then_exit`: parent 7 is registered; child 8 first shows up
with a SIGSTOP stop, the parent reports its fork event, then the child exits. -/
theorem fork_then_exit_witness :
    (iteration exampleEnv ⟨{7}, false, 7⟩
      ⟨⟨8, stopStatus SIGSTOP 0, false⟩, none, none⟩).1.children.card = 1 + 1 ∧
    (loop exampleEnv ⟨{7}, false, 7⟩
      (⟨⟨8, stopStatus SIGSTOP 0, false⟩, none, none⟩ ::
        ([⟨⟨7, stopStatus SIGTRAP PTRACE_EVENT_FORK, false⟩, none, none⟩] ++
          [⟨⟨8, exitStatus 0, false⟩, none, none⟩]))).1 = ⟨{7}, false, 8⟩ :=
  ⟨by decide,
    ((fork_then_exit exampleEnv ⟨{7}, false, 7⟩ 7 8
      ⟨⟨8, stopStatus SIGSTOP 0, false⟩, none, none⟩ ⟨⟨8, exitStatus 0, false⟩, none, none⟩
      [⟨⟨7, stopStatus SIGTRAP PTRACE_EVENT_FORK, false⟩, none, none⟩]
      (by decide) (by decide) (by decide) (by decide) (by decide) (by decide) (by decide)
      (by decide)).2.2.2.2.2.2.2).trans (by decide)⟩

theorem seccompTrap_no_resume (env : Env) (pid : Int) (err : Bool) (inp : IterInput) :
    (seccompTrap env pid err inp).all (fun e => !e.isResume && !e.isWait) = true := by
  unfold seccompTrap
  cases err
  · rw [if_neg Bool.false_ne_true]
    dsimp only
    generalize env.syscallByNum _ = res
    cases res
    · cases inp.regs <;> rfl
    · dsimp only
      by_cases h21 : env.getSyscallNumber (match inp.regs with
          | some r => r
          | none => PtraceRegs.zero) = 21
      · rw [if_pos h21]
        cases inp.regs <;> cases inp.str <;> rfl
      · rw [if_neg h21]
        cases inp.regs <;> rfl
  · rfl

theorem all_ite_of_all {c : Prop} [Decidable c] (a b : List Effect) (p : Effect → Bool)
    (ha : a.all p = true) (hb : b.all p = true) : (if c then a else b).all p = true := by
  by_cases h : c
  · rw [if_pos h]; exact ha
  · rw [if_neg h]; exact hb

theorem classify_no_resume (env : Env) (pid : Int) (s : WaitStatus) (err : Bool)
    (inp : IterInput) :
    (classify env pid s err inp).all (fun e => !e.isResume && !e.isWait) = true := by
  unfold classify
  refine all_ite_of_all _ _ _ (seccompTrap_no_resume env pid err inp) ?_
  repeat (first | rfl | refine all_ite_of_all _ _ _ rfl ?_)

/-- C7 (the code at the failing input).  A seccomp trap of a pid for which
`PtraceGetRegs` fails: the error is logged and the iteration goes on all the
same, resolving the syscall number of the zero register set; with the example
collaborators that number is 0, it resolves to `read`, and a syscall line is
rendered for the stop. -/
theorem register_read_failure_is_not_skipped (env : Env) (st : LoopState) (pid : Int)
    (str : Option String) :
    Effect.syscallByNum (env.getSyscallNumber PtraceRegs.zero) ∈
      (iteration env st
        ⟨⟨pid, stopStatus SIGTRAP PTRACE_EVENT_SECCOMP, false⟩, none, str⟩).2 ∧
    (iteration exampleEnv ⟨{7}, false, 7⟩
        ⟨⟨7, stopStatus SIGTRAP PTRACE_EVENT_SECCOMP, false⟩, none, none⟩).2 =
      [.ptraceSetOptions 7 traceOptions, .ptraceCont 7 0,
        .wait4 ⟨7, stopStatus SIGTRAP PTRACE_EVENT_SECCOMP, false⟩,
        .ptraceGetRegs 7, .logError .ptraceError, .syscallByNum 0,
        .logInfo (.syscallBasic 7 ⟨"read", [INTARG, PTRARG, INTARG]⟩ PtraceRegs.zero)] := by
  constructor
  · have ht := terminal_stopStatus SIGTRAP PTRACE_EVENT_SECCOMP
    simp only [WaitStatus.terminal, Bool.or_eq_false_iff] at ht
    rw [iteration_stop env st _ rfl ht.1 ht.2]
    have hv : (stopStatus SIGTRAP PTRACE_EVENT_SECCOMP % 2 ^ 32) >>> 8 =
        SIGTRAP ||| (PTRACE_EVENT_SECCOMP <<< 8) := by decide
    simp only [classify, hv, seccompTrap]
    cases hres : env.syscallByNum (env.getSyscallNumber PtraceRegs.zero) <;> simp [hres]
  · decide

/-- The startup failures that the code does treat as fatal: when decoding the
profile fails, or creating the stdin pipe fails, or marshalling fails, `Tracer`
calls `os.Exit(1)` and has neither launched nor traced the target. -/
theorem checked_startup_failures_are_fatal (env : Env) (i : TracerInput)
    (h : i.decodeErr = true ∨ i.pipeErr = true ∨ i.jdata = none) :
    (Tracer env i).exitCode = some 1 ∧ (Tracer env i).state = none ∧
      (Tracer env i).effects.all (fun e => !e.touchesTarget) = true ∧
      (Tracer env i).effects.getLast? = some (.exit 1) := by
  unfold Tracer
  cases hdec : i.decodeErr
  · cases hpipe : i.pipeErr
    · cases hj : i.jdata with
      | none => simp [Effect.touchesTarget]
      | some d => simp [hdec, hpipe, hj] at h
    · simp [Effect.touchesTarget]
  · simp [Effect.touchesTarget]

/-- C8 (the code at the failing input).  Decoding, the pipe and marshalling
succeed and the write of the encoded profile to the target's stdin fails: the
result of `io.Copy` is discarded, `os.Exit` is not called, and the target is
launched and traced. -/
theorem write_failure_is_not_fatal (env : Env) (cmd : String) (cmdArgs : List String)
    (data : String) (cpid : Int) (first : WaitResult) (iters : List IterInput) :
    (Tracer env ⟨false, cmd, cmdArgs, false, some data, true, false, cpid, first, iters⟩).exitCode
      = none ∧
    (Tracer env ⟨false, cmd, cmdArgs, false, some data, true, false, cpid, first, iters⟩).state
      = some (loop env (initialState cpid first) iters).1 ∧
    ∃ tail, (Tracer env
        ⟨false, cmd, cmdArgs, false, some data, true, false, cpid, first, iters⟩).effects =
      [.decodeProfile, .logInfo (.running cmd cmdArgs), .stdinPipe, .marshal,
        .copy data true, .logInfo (.jdata data), .closePipe, .start, .wait4 first] ++ tail := by
  refine ⟨rfl, rfl, ?_⟩
  simp [Tracer]

/-- C10 (as stated) fails.  Parent 7 forks child 8; the child stops, then exits
while the parent is still registered.  The loop is still running, the registry
is `{7}`, and the next iteration sets the options on and resumes pid 8, which is
not a key of `children`. -/
theorem resume_target_as_stated_fails :
    (loop exampleEnv (initialState 7 ⟨7, stopStatus SIGTRAP 0, false⟩)
        [⟨⟨7, stopStatus SIGTRAP PTRACE_EVENT_FORK, false⟩, none, none⟩,
          ⟨⟨8, stopStatus SIGSTOP 0, false⟩, none, none⟩,
          ⟨⟨8, exitStatus 0, false⟩, none, none⟩]).1 = ⟨{7}, false, 8⟩ ∧
    (iteration exampleEnv ⟨{7}, false, 8⟩
        ⟨⟨7, stopStatus SIGCHLD 0, false⟩, none, none⟩).2.take 3 =
      [.ptraceSetOptions 8 traceOptions, .ptraceCont 8 0,
        .wait4 ⟨7, stopStatus SIGCHLD 0, false⟩] ∧
    (8 : Int) ∉ (⟨{7}, false, 8⟩ : LoopState).children := by
  refine ⟨by decide, by decide, by decide⟩

/-- C10 (amended).  Every iteration begins with exactly one set-options and one
resume, both on the pid returned by the most recent wait call, followed by the
wait call, and issues no other resume or wait; the pid returned by the wait
becomes the pid of the next resume.  That pid is a key of `children` at that
moment exactly when the wait succeeded with a status that is neither "exited
normally" nor "terminated by signal", or failed while returning a registered
pid; the pid resumed by the first iteration, returned by the first wait, is a
key. -/
theorem one_resume_per_iteration (env : Env) (st : LoopState) (inp : IterInput)
    (cpid : Int) (first : WaitResult) :
    (iteration env st inp).2.take 3 =
      [.ptraceSetOptions st.pid traceOptions, .ptraceCont st.pid 0, .wait4 inp.wait] ∧
    ((iteration env st inp).2.drop 3).all (fun e => !e.isResume && !e.isWait) = true ∧
    (iteration env st inp).1.pid = inp.wait.pid ∧
    ((iteration env st inp).1.pid ∈ (iteration env st inp).1.children ↔
      (if inp.wait.err = true then inp.wait.pid ∈ st.children
       else WaitStatus.terminal inp.wait.status = false)) ∧
    (initialState cpid first).pid = first.pid ∧
    (initialState cpid first).pid ∈ (initialState cpid first).children := by
  refine ⟨?_, ?_, iteration_pid env st inp, ?_, rfl, by simp [initialState]⟩
  · obtain ⟨tail, htail⟩ := iteration_head env st inp
    rw [htail]
    rfl
  · cases herr : inp.wait.err
    · cases hex : WaitStatus.Exited inp.wait.status
      · cases hsig : WaitStatus.Signaled inp.wait.status
        · rw [iteration_stop env st inp herr hex hsig]
          simpa using classify_no_resume env inp.wait.pid inp.wait.status false inp
        · rw [iteration_signaled env st inp herr hex hsig]
          simp [Effect.isResume, Effect.isWait]
      · rw [iteration_exited env st inp herr hex]
        simp [Effect.isResume, Effect.isWait]
    · rw [iteration_err env st inp herr]
      simp [Effect.isResume, Effect.isWait]
  · rw [iteration_pid, iteration_mem]
    cases herr : inp.wait.err <;> simp [WaitResult.returned, herr]

end OzSeccomp
